import Mathlib

/-!
Shallow embedding of `hcrp/labelling.py` (pymorphogen): the fixed-size
translate-only rectangle selector, the mean-region sampling session with
its reset and retry logic, the spline/contour point collector, the label
table construction and the configuration assertions.

Coordinates and pixel intensities are modelled as rationals (`ℚ`); images
as lists of rows (`List (List ℚ)` for the numeric image sampled by
`get_mean_region`, `List (List ℕ)` for the integer image handed to the
point collector).  Python's `int()` truncation and slice semantics are
embedded explicitly below.
-/

namespace Labelling

/-- Python `int(q)` on a float: truncation toward zero.
On a reduced rational, `num.tdiv den` is exactly truncation toward zero. -/
def pyInt (q : ℚ) : ℤ := q.num.tdiv q.den

/-- Normalise one bound of a Python slice `l[a:b]` for a list of length `n`:
negative indices count from the end and everything is clamped to `[0, n]`. -/
def sliceIdx (n : ℕ) (i : ℤ) : ℕ :=
  if i < 0 then ((n : ℤ) + i).toNat else min i.toNat n

/-- Python / numpy basic slice `l[a:b]` (step 1). -/
def pySlice (l : List α) (a b : ℤ) : List α :=
  (l.take (sliceIdx l.length b)).drop (sliceIdx l.length a)

/-- A numeric image, row-major: `image[y][x]`. -/
abbrev Img := List (List ℚ)

/-- numpy `image[y1:y2, x1:x2]`, flattened row-major. -/
def extractRegion (image : Img) (x1 x2 y1 y2 : ℤ) : List ℚ :=
  ((pySlice image y1 y2).map (fun row => pySlice row x1 x2)).flatten

/-- `np.mean` over a flattened region; the empty region gives NaN in numpy,
modelled as `none`. -/
def npMean (l : List ℚ) : Option ℚ :=
  if l.isEmpty then none else some (l.sum / (l.length : ℚ))

/-- A selector extent, in matplotlib order `(xmin, xmax, ymin, ymax)`
(the Python tuple `x0, x1, y0, y1`). -/
structure Extent where
  x0 : ℚ
  x1 : ℚ
  y0 : ℚ
  y1 : ℚ
deriving Repr, DecidableEq

/-- Width `x_max - x_min` of an extent. -/
def Extent.width (e : Extent) : ℚ := e.x1 - e.x0

/-- Height `y_max - y_min` of an extent. -/
def Extent.height (e : Extent) : ℚ := e.y1 - e.y0

/-- State of a `FixedSizeRectangleSelector`: the live `extents`, the
extent snapshot `_extents_on_press`, the press point `_eventpress`
(in data coordinates, `none` outside a drag) and `_active_handle`
(`"C"` for a whole-shape move). -/
structure Selector where
  extents : Extent
  extentsOnPress : Extent
  eventpress : Option (ℚ × ℚ)
  activeHandle : String
deriving Repr, DecidableEq

namespace Selector

/-- `FixedSizeRectangleSelector.__init__`: `self.extents = 0, size, 0, size`
(creation of further rectangles is disabled; no drag is active yet). -/
def init (size : ℚ) : Selector :=
  { extents := ⟨0, size, 0, size⟩
    extentsOnPress := ⟨0, size, 0, size⟩
    eventpress := none
    activeHandle := "" }

/-- Host-widget press handling (matplotlib `RectangleSelector._press`,
an external collaborator): record the press point in data coordinates,
snapshot `_extents_on_press` from the live extents and set the active
handle for the drag. -/
def press (s : Selector) (x y : ℚ) (handle : String) : Selector :=
  { s with eventpress := some (x, y)
           extentsOnPress := s.extents
           activeHandle := handle }

/-- `FixedSizeRectangleSelector._onmove` with press point `(px, py)`:
start from `_extents_on_press`; when the active handle is the centre
(`"C"`, a whole-shape move) shift all four bounds by
`(xdata - px, ydata - py)`; then assign `self.extents`. -/
def onmove (s : Selector) (px py xdata ydata : ℚ) : Selector :=
  let move := s.activeHandle = "C"
  let e := s.extentsOnPress
  let dx := xdata - px
  let dy := ydata - py
  if move then
    { s with extents := ⟨e.x0 + dx, e.x1 + dx, e.y0 + dy, e.y1 + dy⟩ }
  else
    { s with extents := ⟨e.x0, e.x1, e.y0, e.y1⟩ }

/-- A motion-notify event: `_onmove` runs only during an active drag
(`_eventpress` set); otherwise the host widget ignores the motion. -/
def onmoveEvent (s : Selector) (xdata ydata : ℚ) : Selector :=
  match s.eventpress with
  | none => s
  | some (px, py) => onmove s px py xdata ydata

/-- Button release: the drag ends and the press record is cleared. -/
def release (s : Selector) : Selector :=
  { s with eventpress := none }

end Selector

/-- A pointer event dispatched to the selector by the host GUI loop. -/
inductive SelEvent where
  | press (x y : ℚ) (handle : String)
  | move (x y : ℚ)
  | release
deriving Repr, DecidableEq

/-- One event step of the selector. -/
def selStep (s : Selector) (e : SelEvent) : Selector :=
  match e with
  | .press x y h => s.press x y h
  | .move x y => s.onmoveEvent x y
  | .release => s.release

/-- The selector state after a session: construction at `size`, then a
sequence of pointer events. -/
def runSelector (size : ℚ) (events : List SelEvent) : Selector :=
  events.foldl selStep (Selector.init size)

/-- The size invariant used for induction: both the live extents and the
press snapshot measure `size × size`. -/
def SizeInv (size : ℚ) (s : Selector) : Prop :=
  s.extents.width = size ∧ s.extents.height = size ∧
  s.extentsOnPress.width = size ∧ s.extentsOnPress.height = size

theorem sizeInv_init (size : ℚ) : SizeInv size (Selector.init size) := by
  refine ⟨?_, ?_, ?_, ?_⟩ <;> simp [Selector.init, Extent.width, Extent.height]

theorem sizeInv_step (size : ℚ) (s : Selector) (e : SelEvent)
    (h : SizeInv size s) : SizeInv size (selStep s e) := by
  obtain ⟨h1, h2, h3, h4⟩ := h
  cases e with
  | press x y handle =>
    exact ⟨h1, h2, h1, h2⟩
  | move x y =>
    unfold selStep Selector.onmoveEvent
    cases hp : s.eventpress with
    | none => exact ⟨h1, h2, h3, h4⟩
    | some p =>
      obtain ⟨px, py⟩ := p
      unfold Selector.onmove
      dsimp only
      by_cases hm : s.activeHandle = "C" <;>
        simp only [hm, if_true, if_false, reduceIte] <;>
        refine ⟨?_, ?_, h3, h4⟩ <;>
        simp [Extent.width, Extent.height] at h3 h4 ⊢ <;> linarith
  | release =>
    exact ⟨h1, h2, h3, h4⟩

theorem sizeInv_foldl (size : ℚ) (events : List SelEvent) (s : Selector)
    (h : SizeInv size s) : SizeInv size (events.foldl selStep s) := by
  induction events generalizing s with
  | nil => exact h
  | cons e rest ih => exact ih _ (sizeInv_step size s e h)

/-- An event dispatched during a `get_mean_region` session: selector
pointer events, the drag-release that fires `onselect`, and key presses
seen by the `reset` handler. -/
inductive GMREvent where
  | press (x y : ℚ) (handle : String)
  | move (x y : ℚ)
  | release
  | key (k : String)
deriving Repr, DecidableEq

/-- Session state of `get_mean_region`: the selector plus the two
accumulator lists `means` and `centers` captured by the closures. -/
structure GMRState where
  selector : Selector
  means : List (Option ℚ)
  centers : List (ℚ × ℚ)
deriving Repr, DecidableEq

/-- `get_mean_region.onselect`: read `selector.extents`, round all four
bounds with `int`, extract `image[y1:y2, x1:x2]` from the raw image,
append its `np.mean`, and append the centre
`[(x1 + x2) / 2, (y1 + y2) / 2]` computed from the rounded bounds. -/
def onselect (image : Img) (st : GMRState) : GMRState :=
  let e := st.selector.extents
  let x1 := pyInt e.x0
  let x2 := pyInt e.x1
  let y1 := pyInt e.y0
  let y2 := pyInt e.y1
  let region := extractRegion image x1 x2 y1 y2
  { st with
    means := st.means ++ [npMean region]
    centers := st.centers ++ [(((x1 : ℚ) + (x2 : ℚ)) / 2, ((y1 : ℚ) + (y2 : ℚ)) / 2)] }

/-- `get_mean_region.reset` on a key press: only for key `"r"` it clears
`means` (and only `means`) and sets `selector.extents = 0, size, 0, size`. -/
def resetKey (size : ℚ) (k : String) (st : GMRState) : GMRState :=
  if k = "r" then
    { st with
      means := []
      selector := { st.selector with extents := ⟨0, size, 0, size⟩ } }
  else st

/-- One event step of a sampling session.  A release fires `onselect`
only when a drag is active, then ends the drag. -/
def gmrStep (image : Img) (size : ℚ) (st : GMRState) (e : GMREvent) : GMRState :=
  match e with
  | .press x y h => { st with selector := st.selector.press x y h }
  | .move x y => { st with selector := st.selector.onmoveEvent x y }
  | .release =>
    match st.selector.eventpress with
    | none => st
    | some _ =>
      let st' := onselect image st
      { st' with selector := st'.selector.release }
  | .key k => resetKey size k st

/-- One full interactive session of `get_mean_region` (between `plt.show()`
and the window closing): the selector is constructed at `size` and the
events are dispatched in order by the GUI loop. -/
def sessionRun (image : Img) (size : ℚ) (events : List GMREvent) : GMRState :=
  events.foldl (gmrStep image size) ⟨Selector.init size, [], []⟩

/-- `return means[-1], centers[-1]` guarded by `except IndexError`:
`some` of the last pair when both reads succeed, `none` when an
`IndexError` is raised. -/
def lastResult (st : GMRState) : Option (Option ℚ × (ℚ × ℚ)) :=
  match st.means.getLast?, st.centers.getLast? with
  | some m, some c => some (m, c)
  | _, _ => none

/-- `get_mean_region(image, high_contrast, name, size, vmax)`.  The human
operator's future behaviour is the list of sessions (one entry per window
shown); on an `IndexError` the function recurses with the same arguments
(after `high_contrast` was defaulted to `image` when it was `None`).
`none` models the human never confirming in any session. -/
def get_mean_region (image : Img) (high_contrast : Option Img) (name : String)
    (size : ℚ) (vmax : Option ℚ) : List (List GMREvent) → Option (Option ℚ × (ℚ × ℚ))
  | [] => none
  | s :: rest =>
    let hc : Img := match high_contrast with | none => image | some h => h
    match lastResult (sessionRun image size s) with
    | some r => some r
    | none => get_mean_region image (some hc) name size vmax rest

/-- The result of one Region Sampler request as consumed by `label`:
a mean intensity and a centre point. -/
structure Sample where
  mean : ℚ
  cx : ℚ
  cy : ℚ
deriving Repr, DecidableEq

/-- `columns = ["mean_intensity", "window_length", "x", "y", "z"]` in `label`. -/
def labelColumns : List String :=
  ["mean_intensity", "window_length", "x", "y", "z"]

/-- The rows `df.loc[channel_name] = [mean, *center, mid_layer, size]`
written by `label`'s loop `for j, channel_name in enumerate(channel_names[:-1])`,
with the interactive `get_mean_region` outcomes supplied by the oracle
`samples` (one per loop index and channel name). -/
def labelRows (channel_names : List String) (mid_layer size : ℚ)
    (samples : ℕ → String → Sample) : List (String × List ℚ) :=
  channel_names.dropLast.enum.map fun jc =>
    let s := samples jc.1 jc.2
    (jc.2, [s.mean, s.cx, s.cy, mid_layer, size])

/-- The default `channel_names` argument of `label` and `label_folder`. -/
def defaultChannelNames : List String := ["brk", "dpp", "pMad", "nuclear"]

/-- `channel_names[-1]` (Python negative indexing raises `IndexError` on an
empty list), then `assert channel_names[-1] == "nuclear"`: the
configuration check at the top of `label`. -/
def labelAsserts (channel_names : List String) : Except String Unit :=
  match channel_names.getLast? with
  | none => .error "IndexError"
  | some c =>
    if c = "nuclear" then .ok ()
    else .error "AssertionError: The last channel must be nuclear."

/-- The two assertions at the top of `label_folder`, in source order:
`assert os.path.exists(folder)` (the file system modelled as the list of
existing paths) and then `assert channel_names[-1] == "nuclear"`. -/
def labelFolderAsserts (existing : List String) (folder : String)
    (channel_names : List String) : Except String Unit :=
  if folder ∈ existing then labelAsserts channel_names
  else .error ("AssertionError: " ++ folder ++ " does not exist.")

/-- An event dispatched during a `get_spline` session: an OpenCV mouse
event (only `EVENT_LBUTTONDOWN` is acted on) or a key code read by
`waitKey` in the loop (`ord("q") = 113` quits). -/
inductive CVEvent where
  | lbuttondown (x y : ℤ)
  | otherMouse (x y : ℤ)
  | key (k : ℕ)
deriving Repr, DecidableEq

/-- The external OpenCV drawing collaborators used by `get_spline`
(`cv2.equalizeHist`, `cv2.circle`, `cv2.line`), abstract pixel-buffer
transformers over 8-bit buffers. -/
structure CVOps (Buf : Type) where
  equalizeHist : Buf → Buf
  circle : Buf → (ℤ × ℤ) → Buf
  line : Buf → (ℤ × ℤ) → (ℤ × ℤ) → Buf

/-- An integer image as handed to `get_spline` (e.g. a 16-bit channel). -/
abbrev NImg := List (List ℕ)

/-- `(image_with_roi / 256).astype(np.uint8)` for 16-bit input: float
division then C-cast truncation, i.e. `v / 256` on naturals. -/
def toUint8 (image : NImg) : NImg :=
  image.map fun row => row.map fun v => v / 256

/-- Session state of `get_spline`: the caller's array `image` (only ever
copied), the display buffer `image_with_roi_equalized` that all drawing
mutates, the accumulated `roi_points`, and the window title. -/
structure SplineState (Buf : Type) where
  image : NImg
  display : Buf
  roi_points : List (ℤ × ℤ)
  windowName : String

/-- `get_spline.mouse_callback`: on `EVENT_LBUTTONDOWN` append `(x, y)`
to `roi_points`, draw a circle at it on the display buffer and — when a
previous point exists — a line from the previous point; every other
event leaves the session unchanged. -/
def splineStep (ops : CVOps Buf) (st : SplineState Buf) (e : CVEvent) :
    SplineState Buf :=
  match e with
  | .lbuttondown x y =>
    let d1 := ops.circle st.display (x, y)
    let d2 :=
      match st.roi_points.getLast? with
      | some p => ops.line d1 p (x, y)
      | none => d1
    { st with roi_points := st.roi_points ++ [(x, y)], display := d2 }
  | .otherMouse _ _ => st
  | .key _ => st

/-- `get_spline`'s event loop: dispatch mouse events to the callback
until `waitKey` reads `ord("q")`, then break. -/
def splineLoop (ops : CVOps Buf) : List CVEvent → SplineState Buf → SplineState Buf
  | [], st => st
  | .lbuttondown x y :: rest, st =>
    splineLoop ops rest (splineStep ops st (.lbuttondown x y))
  | .otherMouse x y :: rest, st =>
    splineLoop ops rest (splineStep ops st (.otherMouse x y))
  | .key k :: rest, st => if k = 113 then st else splineLoop ops rest st

/-- `get_spline(image, name, window_name)`: copy the image, build the
equalized 8-bit display buffer, default the window title to
`"Manually input Spline for <name>"`, then run the interactive loop. -/
def get_spline (ops : CVOps Buf) (toBuf : NImg → Buf) (image : NImg)
    (name : String) (window_name : Option String) (events : List CVEvent) :
    SplineState Buf :=
  let wn := window_name.getD ("Manually input Spline for " ++ name)
  splineLoop ops events
    { image := image
      display := ops.equalizeHist (toBuf (toUint8 image))
      roi_points := []
      windowName := wn }

/-- `get_contour(image, name)`: `get_spline` re-invoked with the window
title `"Manually input Contour for <name>"`. -/
def get_contour (ops : CVOps Buf) (toBuf : NImg → Buf) (image : NImg)
    (name : String) (events : List CVEvent) : SplineState Buf :=
  get_spline ops toBuf image name
    (some ("Manually input Contour for " ++ name)) events

/-- A 6 × 6 image with every pixel equal to 7, used as a concrete input. -/
def constImg6 : Img := List.replicate 6 (List.replicate 6 7)

/-- C1: for every session-configured size and every sequence of pointer
events handled by the `FixedSizeRectangleSelector`, the extent always
satisfies `x_max - x_min = size` and `y_max - y_min = size`: the width and
height fixed at construction never change across any drag operation. -/
theorem fixed_size_invariant (size : ℚ) (events : List SelEvent) :
    (runSelector size events).extents.width = size ∧
    (runSelector size events).extents.height = size := by
  have h := sizeInv_foldl size events (Selector.init size) (sizeInv_init size)
  exact ⟨h.1, h.2.1⟩

/-- C2: during a whole-shape drag (`_active_handle == "C"`) with press
point `(px, py)` and current point `(cx, cy)` in data coordinates,
`_onmove` sets the new extent to the pre-drag snapshot
`_extents_on_press` shifted by `(cx - px)` on both x-bounds and
`(cy - py)` on both y-bounds; width and height are carried over from the
pre-drag extent, never recomputed from the drag. -/
theorem translation_only (s : Selector) (px py cx cy : ℚ)
    (hp : s.eventpress = some (px, py)) (hh : s.activeHandle = "C") :
    (s.onmoveEvent cx cy).extents =
      ⟨s.extentsOnPress.x0 + (cx - px), s.extentsOnPress.x1 + (cx - px),
       s.extentsOnPress.y0 + (cy - py), s.extentsOnPress.y1 + (cy - py)⟩ ∧
    (s.onmoveEvent cx cy).extents.width = s.extentsOnPress.width ∧
    (s.onmoveEvent cx cy).extents.height = s.extentsOnPress.height := by
  rw [Selector.onmoveEvent, hp]
  refine ⟨by simp [Selector.onmove, hh], ?_, ?_⟩ <;>
    simp [Selector.onmove, hh, Extent.width, Extent.height]

theorem translation_only_witness :
    (((Selector.init 50).press 1 2 "C").onmoveEvent 4 6).extents =
      ⟨3, 53, 4, 54⟩ := by
  have h := translation_only ((Selector.init 50).press 1 2 "C") 1 2 4 6 rfl rfl
  rw [h.1]
  simp [Selector.press, Selector.init]
  norm_num

/-- During any sampling session, `means` never gets longer than
`centers`: `onselect` appends to both, `reset` clears only `means`. -/
theorem means_le_centers (image : Img) (size : ℚ) (events : List GMREvent) :
    (sessionRun image size events).means.length ≤
      (sessionRun image size events).centers.length := by
  unfold sessionRun
  suffices h : ∀ (st : GMRState), st.means.length ≤ st.centers.length →
      (events.foldl (gmrStep image size) st).means.length ≤
        (events.foldl (gmrStep image size) st).centers.length from
    h ⟨Selector.init size, [], []⟩ le_rfl
  induction events with
  | nil => exact fun st h => h
  | cons e rest ih =>
    intro st h
    refine ih _ ?_
    cases e with
    | press x y handle => exact h
    | move x y => exact h
    | release =>
      unfold gmrStep
      cases st.selector.eventpress with
      | none => exact h
      | some p => simpa [onselect] using h
    | key k =>
      unfold gmrStep resetKey
      by_cases hk : k = "r"
      · simp [hk]
      · simpa [hk] using h

/-- C3: at window close, if the session holds at least one recorded
sample then `get_mean_region` returns the last `(mean, center)` pair;
if the sample list is empty, reading the last element raises an
`IndexError` which is caught, and `get_mean_region` is re-invoked with
identical arguments on the operator's next session instead of raising
to the caller — for any number of remaining sessions. -/
theorem retry_policy (image h : Img) (name : String) (size : ℚ)
    (vmax : Option ℚ) (s : List GMREvent) (rest : List (List GMREvent)) :
    ((sessionRun image size s).means = [] →
      get_mean_region image (some h) name size vmax (s :: rest) =
        get_mean_region image (some h) name size vmax rest) ∧
    (∀ m, (sessionRun image size s).means.getLast? = some m →
      ∃ c, (sessionRun image size s).centers.getLast? = some c ∧
        get_mean_region image (some h) name size vmax (s :: rest) =
          some (m, c)) := by
  constructor
  · intro hm
    have hl : lastResult (sessionRun image size s) = none := by
      rw [lastResult, hm]
      simp
    simp only [get_mean_region, hl]
  · intro m hm
    have hne : (sessionRun image size s).means ≠ [] := by
      intro hc
      rw [hc] at hm
      simp at hm
    have hlen := means_le_centers image size s
    have hcne : (sessionRun image size s).centers ≠ [] := by
      intro hc
      rw [hc] at hlen
      exact hne (List.length_eq_zero.mp (Nat.le_zero.mp (by simpa using hlen)))
    cases hc : (sessionRun image size s).centers.getLast? with
    | none => exact absurd (List.getLast?_eq_none_iff.mp hc) hcne
    | some c =>
      refine ⟨c, rfl, ?_⟩
      have hl : lastResult (sessionRun image size s) = some (m, c) := by
        rw [lastResult, hm, hc]
      simp only [get_mean_region, hl]

theorem retry_policy_witness :
    get_mean_region [[(1 : ℚ)]] (some [[1]]) "n" 5 none [[]] =
      get_mean_region [[(1 : ℚ)]] (some [[1]]) "n" 5 none [] := by
  exact (retry_policy [[(1 : ℚ)]] [[1]] "n" 5 none [] []).1 rfl

/-- A Python slice of a list only contains elements of the list. -/
theorem mem_of_mem_pySlice {l : List α} {a b : ℤ} {x : α}
    (hx : x ∈ pySlice l a b) : x ∈ l :=
  List.mem_of_mem_take (List.mem_of_mem_drop hx)

/-- Every pixel of an extracted region comes from some row of the image. -/
theorem mem_extractRegion (image : Img) (x1 x2 y1 y2 : ℤ) (v : ℚ)
    (hv : v ∈ extractRegion image x1 x2 y1 y2) :
    ∃ row ∈ image, v ∈ row := by
  rw [extractRegion] at hv
  simp only [List.mem_flatten, List.mem_map] at hv
  obtain ⟨sub, ⟨row, hrow, rfl⟩, hvsub⟩ := hv
  exact ⟨row, mem_of_mem_pySlice hrow, mem_of_mem_pySlice hvsub⟩

/-- The sum of a list whose members all equal `c` is `length * c`. -/
theorem sum_of_const (l : List ℚ) (c : ℚ) (h : ∀ x ∈ l, x = c) :
    l.sum = (l.length : ℚ) * c := by
  induction l with
  | nil => simp
  | cons a t ih =>
    have ha : a = c := h a (List.mem_cons_self a t)
    have ht : ∀ x ∈ t, x = c := fun x hx => h x (List.mem_cons_of_mem a hx)
    rw [List.sum_cons, ha, ih ht, List.length_cons]
    push_cast
    ring

/-- `np.mean` of a nonempty constant region is exactly the constant. -/
theorem npMean_const (l : List ℚ) (c : ℚ) (hne : l ≠ [])
    (h : ∀ x ∈ l, x = c) : npMean l = some c := by
  have hE : l.isEmpty = false := by
    cases l with
    | nil => exact absurd rfl hne
    | cons a t => rfl
  have hl : (l.length : ℚ) ≠ 0 := by
    simpa using hne
  rw [npMean, hE]
  simp only [Bool.false_eq_true, if_false]
  rw [sum_of_const l c h, mul_comm, mul_div_assoc, div_self hl, mul_one]

/-- C4 (amended): on every confirmed drag-release, `onselect` reads the
selector's current extent, rounds all four bounds to integers, extracts
the sub-array `image[y1:y2, x1:x2]` from the raw image, appends its
arithmetic mean, and appends a centre equal to the midpoint of the
**rounded-to-int** bounds on each axis; for a constant-valued image and
a nonempty extracted region the recorded mean equals the constant. -/
theorem onselect_behavior (image : Img) (st : GMRState) :
    (onselect image st).means =
      st.means ++ [npMean (extractRegion image (pyInt st.selector.extents.x0)
        (pyInt st.selector.extents.x1) (pyInt st.selector.extents.y0)
        (pyInt st.selector.extents.y1))] ∧
    (onselect image st).centers =
      st.centers ++ [(((pyInt st.selector.extents.x0 : ℚ) +
          (pyInt st.selector.extents.x1 : ℚ)) / 2,
        ((pyInt st.selector.extents.y0 : ℚ) +
          (pyInt st.selector.extents.y1 : ℚ)) / 2)] ∧
    ∀ c : ℚ, (∀ row ∈ image, ∀ v ∈ row, v = c) →
      extractRegion image (pyInt st.selector.extents.x0)
        (pyInt st.selector.extents.x1) (pyInt st.selector.extents.y0)
        (pyInt st.selector.extents.y1) ≠ [] →
      npMean (extractRegion image (pyInt st.selector.extents.x0)
        (pyInt st.selector.extents.x1) (pyInt st.selector.extents.y0)
        (pyInt st.selector.extents.y1)) = some c := by
  refine ⟨rfl, rfl, ?_⟩
  intro c himg hne
  refine npMean_const _ c hne ?_
  intro v hv
  obtain ⟨row, hrow, hvrow⟩ := mem_extractRegion image _ _ _ _ v hv
  exact himg row hrow v hvrow

theorem onselect_behavior_witness :
    (onselect constImg6 ⟨Selector.init 5, [], []⟩).centers =
      [(5 / 2, 5 / 2)] ∧
    (onselect constImg6 ⟨Selector.init 5, [], []⟩).means = [some 7] := by
  have t0 : Int.tdiv 0 1 = 0 := by decide
  have t5 : Int.tdiv 5 1 = 5 := by decide
  have h := onselect_behavior constImg6 ⟨Selector.init 5, [], []⟩
  constructor
  · rw [h.2.1]
    norm_num [Selector.init, pyInt, t0, t5]
  · rw [h.1, h.2.2 7 (by decide) (by decide)]
    rfl

/-- C4 counterexample: a drag of `(1/2, 1/2)` from the initial `size = 5`
extent leaves the selector at the non-integer extent
`(1/2, 11/2, 1/2, 11/2)`; the recorded centre is `(5/2, 5/2)`, the
midpoint of the rounded bounds `0` and `5`, while the midpoint of the
unrounded extent is `3` on each axis — the claim's unrounded midpoint
is not what is recorded. -/
theorem center_unrounded_counterexample :
    (sessionRun constImg6 5
        [.press 0 0 "C", .move (1 / 2) (1 / 2), .release]).selector.extents =
      ⟨1 / 2, 11 / 2, 1 / 2, 11 / 2⟩ ∧
    (sessionRun constImg6 5
        [.press 0 0 "C", .move (1 / 2) (1 / 2), .release]).centers =
      [(5 / 2, 5 / 2)] ∧
    ((5 : ℚ) / 2, (5 : ℚ) / 2) ≠
      ((1 / 2 + 11 / 2) / 2, (1 / 2 + 11 / 2) / 2) := by
  have t1 : Int.tdiv 1 2 = 0 := by decide
  have t2 : Int.tdiv 11 2 = 5 := by decide
  refine ⟨?_, ?_, ?_⟩ <;>
    norm_num [sessionRun, gmrStep, Selector.press, Selector.onmoveEvent,
      Selector.onmove, Selector.release, Selector.init, onselect, pyInt,
      t1, t2, Prod.ext_iff]

/-- C5 (code bug): after confirming one selection and pressing `r`, the
`reset` handler clears `means` and restores the extent to
`(0, size, 0, size)`, but the companion `centers` list keeps its record:
the `(mean, center)` result sequence is not cleared in bulk. -/
theorem reset_keeps_centers :
    (sessionRun constImg6 5
        [.press 0 0 "C", .move 1 1, .release, .key "r"]).means = [] ∧
    (sessionRun constImg6 5
        [.press 0 0 "C", .move 1 1, .release, .key "r"]).centers =
      [(7 / 2, 7 / 2)] ∧
    (sessionRun constImg6 5
        [.press 0 0 "C", .move 1 1, .release, .key "r"]).selector.extents =
      ⟨0, 5, 0, 5⟩ := by
  have t1 : Int.tdiv 1 1 = 1 := by decide
  have t6 : Int.tdiv 6 1 = 6 := by decide
  refine ⟨?_, ?_, ?_⟩ <;>
    norm_num [sessionRun, gmrStep, Selector.press, Selector.onmoveEvent,
      Selector.onmove, Selector.release, Selector.init, onselect, resetKey,
      pyInt, t1, t6, Prod.ext_iff]

/-- C6: for the default channel list, `label` builds the background and
signal-background tables with exactly 3 rows — one per channel except the
trailing `"nuclear"` — each row holding the values
`(mean, center_x, center_y, mid_layer, size)` under the columns
`mean_intensity, window_length, x, y, z` in that order. -/
theorem label_table_shape (mid_layer size : ℚ) (bg sbg : ℕ → String → Sample) :
    labelColumns = ["mean_intensity", "window_length", "x", "y", "z"] ∧
    (labelRows defaultChannelNames mid_layer size bg).length = 3 ∧
    labelRows defaultChannelNames mid_layer size bg =
      [("brk", [(bg 0 "brk").mean, (bg 0 "brk").cx, (bg 0 "brk").cy,
         mid_layer, size]),
       ("dpp", [(bg 1 "dpp").mean, (bg 1 "dpp").cx, (bg 1 "dpp").cy,
         mid_layer, size]),
       ("pMad", [(bg 2 "pMad").mean, (bg 2 "pMad").cx, (bg 2 "pMad").cy,
         mid_layer, size])] ∧
    labelRows defaultChannelNames mid_layer size sbg =
      [("brk", [(sbg 0 "brk").mean, (sbg 0 "brk").cx, (sbg 0 "brk").cy,
         mid_layer, size]),
       ("dpp", [(sbg 1 "dpp").mean, (sbg 1 "dpp").cx, (sbg 1 "dpp").cy,
         mid_layer, size]),
       ("pMad", [(sbg 2 "pMad").mean, (sbg 2 "pMad").cx, (sbg 2 "pMad").cy,
         mid_layer, size])] ∧
    (labelRows defaultChannelNames mid_layer size bg).map
      (fun row => row.2.length) = [5, 5, 5] :=
  ⟨rfl, rfl, rfl, rfl, rfl⟩

/-- During the point-collector loop, a left click appends its coordinates
and every event before the quit key preserves the caller's image. -/
theorem splineLoop_clicks (ops : CVOps Buf) (ps : List (ℤ × ℤ))
    (st : SplineState Buf) :
    (splineLoop ops
        (ps.map (fun p => CVEvent.lbuttondown p.1 p.2) ++ [CVEvent.key 113])
        st).roi_points = st.roi_points ++ ps := by
  induction ps generalizing st with
  | nil => simp [splineLoop]
  | cons p rest ih =>
    simp only [List.map_cons, List.cons_append, splineLoop, List.append_eq]
    rw [ih]
    simp [splineStep]

/-- C7: for every sequence of left-button-down events at `p1, ..., pn`
followed by the quit keypress, `get_spline` returns exactly
`[p1, ..., pn]` in click order — no deduplication, no reordering, no
maximum point count. -/
theorem point_collector_order (ops : CVOps Buf) (toBuf : NImg → Buf)
    (image : NImg) (name : String) (ps : List (ℤ × ℤ)) :
    (get_spline ops toBuf image name none
        (ps.map (fun p => CVEvent.lbuttondown p.1 p.2) ++
          [CVEvent.key 113])).roi_points = ps := by
  rw [get_spline, splineLoop_clicks]
  simp

/-- The loop never changes the caller's image field. -/
theorem splineLoop_image (ops : CVOps Buf) (events : List CVEvent)
    (st : SplineState Buf) :
    (splineLoop ops events st).image = st.image := by
  induction events generalizing st with
  | nil => rfl
  | cons e rest ih =>
    cases e with
    | lbuttondown x y =>
      rw [splineLoop, ih]
      simp [splineStep]
    | otherMouse x y =>
      rw [splineLoop, ih]
      simp [splineStep]
    | key k =>
      rw [splineLoop]
      by_cases hk : k = 113
      · rw [if_pos hk]
      · rw [if_neg hk, ih]

/-- The loop never changes the window title. -/
theorem splineLoop_windowName (ops : CVOps Buf) (events : List CVEvent)
    (st : SplineState Buf) :
    (splineLoop ops events st).windowName = st.windowName := by
  induction events generalizing st with
  | nil => rfl
  | cons e rest ih =>
    cases e with
    | lbuttondown x y =>
      rw [splineLoop, ih]
      simp [splineStep]
    | otherMouse x y =>
      rw [splineLoop, ih]
      simp [splineStep]
    | key k =>
      rw [splineLoop]
      by_cases hk : k = 113
      · rw [if_pos hk]
      · rw [if_neg hk, ih]

/-- The collected points do not depend on the window title: two loop
runs whose states differ only in `windowName` collect the same points. -/
theorem splineLoop_points_title_irrel (ops : CVOps Buf)
    (events : List CVEvent) (image : NImg) (d : Buf) (pts : List (ℤ × ℤ))
    (w w' : String) :
    (splineLoop ops events ⟨image, d, pts, w⟩).roi_points =
      (splineLoop ops events ⟨image, d, pts, w'⟩).roi_points := by
  induction events generalizing d pts with
  | nil => rfl
  | cons e rest ih =>
    cases e with
    | lbuttondown x y =>
      rw [splineLoop, splineLoop]
      exact ih _ _
    | otherMouse x y =>
      rw [splineLoop, splineLoop]
      exact ih _ _
    | key k =>
      rw [splineLoop, splineLoop]
      by_cases hk : k = 113
      · rw [if_pos hk, if_pos hk]
      · rw [if_neg hk, if_neg hk]
        exact ih _ _

/-- C9: `get_contour(image, name)` is exactly `get_spline` invoked with
the window title `"Manually input Contour for <name>"`: the same
mechanism, returning the same collected points as the plain spline
variant, differing only in the window title. -/
theorem contour_refines_spline (ops : CVOps Buf) (toBuf : NImg → Buf)
    (image : NImg) (name : String) (events : List CVEvent) :
    get_contour ops toBuf image name events =
      get_spline ops toBuf image name
        (some ("Manually input Contour for " ++ name)) events ∧
    (get_contour ops toBuf image name events).roi_points =
      (get_spline ops toBuf image name none events).roi_points ∧
    (get_contour ops toBuf image name events).windowName =
      "Manually input Contour for " ++ name := by
  refine ⟨rfl, ?_, ?_⟩
  · rw [get_contour, get_spline, get_spline]
    exact splineLoop_points_title_irrel ops events image _ [] _ _
  · rw [get_contour, get_spline, splineLoop_windowName]
    rfl

/-- C10: `get_spline` never mutates its input image: all marker and line
drawing during the session targets the equalized 8-bit display copy, so
the caller's array is unchanged when `get_spline` returns, for every
event sequence and every behaviour of the drawing primitives. -/
theorem spline_preserves_image (ops : CVOps Buf) (toBuf : NImg → Buf)
    (image : NImg) (name : String) (window_name : Option String)
    (events : List CVEvent) :
    (get_spline ops toBuf image name window_name events).image = image := by
  rw [get_spline, splineLoop_image]

/-- C8: `label` and `label_folder` fail by assertion exactly when the
last channel name is not `"nuclear"`; `label_folder` additionally fails
by assertion when the target folder does not exist (checked first); when
both preconditions hold no configuration assertion fires. -/
theorem config_assertions (existing : List String) (folder : String)
    (channel_names : List String) (c : String)
    (hlast : channel_names.getLast? = some c) :
    (c ≠ "nuclear" →
      labelAsserts channel_names =
        .error "AssertionError: The last channel must be nuclear." ∧
      (folder ∈ existing →
        labelFolderAsserts existing folder channel_names =
          .error "AssertionError: The last channel must be nuclear.")) ∧
    (folder ∉ existing →
      labelFolderAsserts existing folder channel_names =
        .error ("AssertionError: " ++ folder ++ " does not exist.")) ∧
    (c = "nuclear" →
      labelAsserts channel_names = .ok () ∧
      (folder ∈ existing →
        labelFolderAsserts existing folder channel_names = .ok ())) := by
  refine ⟨?_, ?_, ?_⟩
  · intro hc
    have hA : labelAsserts channel_names =
        .error "AssertionError: The last channel must be nuclear." := by
      rw [labelAsserts, hlast]
      simp [hc]
    refine ⟨hA, ?_⟩
    intro hmem
    rw [labelFolderAsserts, if_pos hmem, hA]
  · intro hmem
    rw [labelFolderAsserts, if_neg hmem]
  · intro hc
    have hA : labelAsserts channel_names = .ok () := by
      rw [labelAsserts, hlast]
      simp [hc]
    refine ⟨hA, ?_⟩
    intro hmem
    rw [labelFolderAsserts, if_pos hmem, hA]

theorem config_assertions_witness :
    labelAsserts defaultChannelNames = Except.ok () ∧
    labelFolderAsserts ["data"] "data" defaultChannelNames = Except.ok () := by
  have h := config_assertions ["data"] "data" defaultChannelNames "nuclear" rfl
  have hok := h.2.2 rfl
  exact ⟨hok.1, hok.2 (by simp)⟩

end Labelling
